import Mathlib

/-!
Verification of the sarosh-site serverless handlers.

This file shallowly embeds the request handlers of the repository
(chat, summarization, vision and file-extraction endpoints) as pure Lean
functions and proves the specification claims about them.  External
libraries (the OpenAI SDK, `pdf-parse`, `mammoth`, `XLSX`, `iconv-lite`,
`node-html-parser`, `marked`, `crypto`) are modelled as explicit function
parameters; the repository's own logic (dispatch, validation, state
updates, truncation, token verification) is translated directly from the
source.
-/

namespace SaroshSite

/-- A role-tagged chat message, as stored in the in-memory conversation maps. -/
structure Msg where
  role : String
  content : String
deriving DecidableEq, Repr

/-- The in-memory conversation store: a JS `Map` from identifier to message
history, modelled as an insertion-ordered association list. -/
abbrev Store := List (String × List Msg)

/-- `Map.get`: the value stored under `k`, if any. -/
def storeGet : Store → String → Option (List Msg)
  | [], _ => none
  | (k', v') :: rest, k => if k' = k then some v' else storeGet rest k

/-- `Map.set`: update the value under `k` in place if present
(keeping insertion order, like a JS `Map`), otherwise append the binding. -/
def storeSet : Store → String → List Msg → Store
  | [], k, v => [(k, v)]
  | (k', v') :: rest, k, v =>
      if k' = k then (k, v) :: rest else (k', v') :: storeSet rest k v

/-- JS truthiness of an optional string field: `undefined`/`null` and the
empty string are falsy. -/
def truthy : Option String → Bool
  | none => false
  | some s => decide (s ≠ "")

theorem storeGet_storeSet (s : Store) (k : String) (v : List Msg) (i : String) :
    storeGet (storeSet s k v) i = if i = k then some v else storeGet s i := by
  induction s with
  | nil =>
    by_cases h : k = i
    · subst h; simp [storeSet, storeGet]
    · simp [storeSet, storeGet, h, Ne.symm h]
  | cons hd tl ih =>
    obtain ⟨k', v'⟩ := hd
    by_cases hk : k' = k
    · subst hk
      by_cases hi : k' = i
      · subst hi; simp [storeSet, storeGet]
      · simp [storeSet, storeGet, hi, Ne.symm hi]
    · by_cases hi : k' = i
      · subst hi
        simp [storeSet, storeGet, hk, Ne.symm hk, fun h : k' = k => hk h]
      · simp [storeSet, storeGet, hk, hi, ih]

/-- `s'` extends `s`: every stored history survives, with the old sequence a
prefix of the new one. -/
def storeExtends (s s' : Store) : Prop :=
  ∀ id msgs, storeGet s id = some msgs →
    ∃ msgs', storeGet s' id = some msgs' ∧ msgs <+: msgs'

theorem storeExtends_refl (s : Store) : storeExtends s s :=
  fun _ msgs h => ⟨msgs, h, [], by simp⟩

/-- Appending messages to one key's history (the push-then-set pattern every
handler uses) only extends the store. -/
theorem storeExtends_set_append (s : Store) (k : String) (tail : List Msg) :
    storeExtends s (storeSet s k ((storeGet s k).getD [] ++ tail)) := by
  intro i msgs hi
  rw [storeGet_storeSet]
  by_cases h : i = k
  · subst h
    rw [hi]
    exact ⟨msgs ++ tail, by simp, tail, rfl⟩
  · simp only [h, if_false]
    exact ⟨msgs, hi, [], by simp⟩

/-! ## Encoding detection (`detectEncoding`, `src/unnamed/part_007` lines 21-33)

A byte buffer is a `List Nat`; JS `buffer[i]` on an out-of-range index is
`undefined`, which every `===` comparison rejects, so the checks are modelled
with `buffer[i]?`. -/

/-- BOM-based encoding sniffing from the multi-format upload handler. -/
def detectEncoding (buffer : List Nat) : String :=
  if buffer[0]? = some 0xEF ∧ buffer[1]? = some 0xBB ∧ buffer[2]? = some 0xBF then
    "utf8"
  else if buffer[0]? = some 0xFF ∧ buffer[1]? = some 0xFE then
    "utf16le"
  else if buffer[0]? = some 0xFE ∧ buffer[1]? = some 0xFF then
    "utf16be"
  else
    "utf8"

theorem pair_isPre_iff (x y : Nat) (b : List Nat) :
    [x, y] <+: b ↔ b[0]? = some x ∧ b[1]? = some y := by
  constructor
  · rintro ⟨t, rfl⟩
    simp
  · match b with
    | [] => intro h; simp at h
    | [b0] => intro h; simp at h
    | b0 :: b1 :: rest =>
      intro h
      simp only [List.getElem?_cons_zero, List.getElem?_cons_succ,
        Option.some.injEq] at h
      exact ⟨rest, by simp [h.1, h.2]⟩

theorem triple_isPre_iff (x y z : Nat) (b : List Nat) :
    [x, y, z] <+: b ↔ b[0]? = some x ∧ b[1]? = some y ∧ b[2]? = some z := by
  constructor
  · rintro ⟨t, rfl⟩
    simp
  · match b with
    | [] => intro h; simp at h
    | [b0] => intro h; simp at h
    | [b0, b1] => intro h; simp at h
    | b0 :: b1 :: b2 :: rest =>
      intro h
      simp only [List.getElem?_cons_zero, List.getElem?_cons_succ,
        Option.some.injEq] at h
      exact ⟨rest, by simp [h.1, h.2.1, h.2.2]⟩

/-- C6: `detectEncoding` is total and BOM-based: it answers `utf8` on the
UTF-8 BOM `EF BB BF`, `utf16le` on `FF FE`, `utf16be` on `FE FF`, and `utf8`
on every other buffer, including buffers shorter than the BOM being probed. -/
theorem detectEncoding_bom_spec (b : List Nat) :
    ([0xEF, 0xBB, 0xBF] <+: b → detectEncoding b = "utf8") ∧
    ([0xFF, 0xFE] <+: b → detectEncoding b = "utf16le") ∧
    ([0xFE, 0xFF] <+: b → detectEncoding b = "utf16be") ∧
    (¬ [0xFF, 0xFE] <+: b → ¬ [0xFE, 0xFF] <+: b → detectEncoding b = "utf8") := by
  refine ⟨?_, ?_, ?_, ?_⟩
  · intro h
    rw [triple_isPre_iff] at h
    obtain ⟨h0, h1, h2⟩ := h
    simp [detectEncoding, h0, h1, h2]
  · intro h
    rw [pair_isPre_iff] at h
    obtain ⟨h0, h1⟩ := h
    simp [detectEncoding, h0, h1]
  · intro h
    rw [pair_isPre_iff] at h
    obtain ⟨h0, h1⟩ := h
    simp [detectEncoding, h0, h1]
  · intro hle hbe
    rw [pair_isPre_iff] at hle hbe
    unfold detectEncoding
    split_ifs with h1
    · rfl
    · rfl

/-- C6 witness: the spec evaluated on the concrete buffer `FF FE 41`. -/
theorem detectEncoding_bom_spec_witness :
    [0xFF, 0xFE] <+: ([0xFF, 0xFE, 0x41] : List Nat) ∧
    detectEncoding [0xFF, 0xFE, 0x41] = "utf16le" :=
  ⟨⟨[0x41], rfl⟩, (detectEncoding_bom_spec [0xFF, 0xFE, 0x41]).2.1 ⟨[0x41], rfl⟩⟩

/-! ## String splitting

JS `String.prototype.split` with a one-character separator, modelled
structurally on the character list so that it evaluates in the kernel. -/

/-- Split a character list at every occurrence of `sep` (JS `split(sep)`). -/
def splitOnChar (sep : Char) : List Char → List (List Char)
  | [] => [[]]
  | c :: rest =>
    match splitOnChar sep rest with
    | [] => [[]]
    | h :: t => if c = sep then [] :: h :: t else (c :: h) :: t

/-- JS `s.split(sep)` for a one-character separator. -/
def jsSplit (sep : Char) (s : String) : List String :=
  (splitOnChar sep s.data).map String.mk

/-! ## Filename extensions (`path.extname(fileName).toLowerCase()`) -/

/-- Index of the last `'.'` in a character list, if any. -/
def lastDotIdx : List Char → Nat → Option Nat → Option Nat
  | [], _, acc => acc
  | c :: rest, i, acc => lastDotIdx rest (i + 1) (if c = '.' then some i else acc)

/-- Node's `path.extname`: the suffix of the basename starting at its last
dot, empty when there is no dot or the dot starts the basename. -/
def extname (fileName : String) : String :=
  let base := (jsSplit '/' fileName).getLastD ""
  match lastDotIdx base.data 0 none with
  | some i => if 0 < i then String.mk (base.data.drop i) else ""
  | none => ""

/-- The lower-cased extension every extraction dispatcher switches on. -/
def fileExtensionOf (fileName : String) : String :=
  String.mk ((extname fileName).data.map Char.toLower)

/-! ## The multi-format extraction dispatcher
(`processFile`, `src/unnamed/part_007` lines 36-155)

The third-party document parsers are modelled as an environment of explicit
functions; `none` models a thrown exception.  `fsRead` models
`fs.readFileSync`. -/

/-- External-library environment for the multi-format dispatcher. -/
structure ExtEnv where
  fsRead : String → List Nat
  pdfParse : List Nat → Option (String × Nat)
  mammoth : List Nat → Option String
  xlsxRead : List Nat → Option (List (String × String))
  iconvDecode : List Nat → String → String
  htmlText : String → String
  markedRender : String → String
  jsonPretty : String → Option String

/-- Result shape of `processFile`. -/
structure FileResult where
  content : String
  type : String
  pages : Option Nat
  sheets : Option Nat
deriving DecidableEq, Repr

/-- The `.xlsx` branch's sheet concatenation loop. -/
def sheetsContent (sheets : List (String × String)) : String :=
  sheets.foldl (fun acc p => acc ++ "Sheet: " ++ p.1 ++ "\n" ++ p.2 ++ "\n\n") ""

/-- The multi-format `processFile` dispatcher of the part_007 upload handler:
extension-based dispatch over PDF, Word, Excel, CSV, HTML, Markdown, plain
text, JSON and XML, with a read-as-text fallback for unknown extensions and
an error wrapper around parser failures.  Its `mimeType` parameter is
accepted but never consulted, exactly as in the source. -/
def processFile (env : ExtEnv) (filePath fileName mimeType : String) :
    Except String FileResult :=
  let fileExtension := fileExtensionOf fileName
  let fileBuffer := env.fsRead filePath
  let wrap : Except String FileResult → Except String FileResult := fun r =>
    match r with
    | .ok v => .ok v
    | .error m => .error ("Failed to process " ++ fileExtension ++ " file: " ++ m)
  wrap (
    if fileExtension = ".pdf" then
      match env.pdfParse fileBuffer with
      | some (text, numpages) => .ok ⟨text, "PDF Document", some numpages, none⟩
      | none => .error "pdf-parse threw"
    else if fileExtension = ".docx" ∨ fileExtension = ".doc" then
      match env.mammoth fileBuffer with
      | some value => .ok ⟨value, "Word Document", none, none⟩
      | none => .error "mammoth threw"
    else if fileExtension = ".xlsx" ∨ fileExtension = ".xls" then
      match env.xlsxRead fileBuffer with
      | some sheetList =>
          .ok ⟨sheetsContent sheetList, "Excel Spreadsheet", none, some sheetList.length⟩
      | none => .error "XLSX.read threw"
    else if fileExtension = ".csv" then
      .ok ⟨env.iconvDecode fileBuffer (detectEncoding fileBuffer), "CSV File", none, none⟩
    else if fileExtension = ".html" ∨ fileExtension = ".htm" then
      let htmlContent := env.iconvDecode fileBuffer (detectEncoding fileBuffer)
      .ok ⟨env.htmlText htmlContent, "HTML Document", none, none⟩
    else if fileExtension = ".md" then
      let markdownContent := env.iconvDecode fileBuffer (detectEncoding fileBuffer)
      let rendered := env.htmlText (env.markedRender markdownContent)
      .ok ⟨markdownContent ++ "\n\n--- Rendered as: ---\n" ++ rendered,
        "Markdown Document", none, none⟩
    else if fileExtension = ".txt" ∨ fileExtension = ".rtf" ∨ fileExtension = "" then
      .ok ⟨env.iconvDecode fileBuffer (detectEncoding fileBuffer), "Text Document", none, none⟩
    else if fileExtension = ".json" then
      let jsonContent := env.iconvDecode fileBuffer (detectEncoding fileBuffer)
      match env.jsonPretty jsonContent with
      | some pretty => .ok ⟨"JSON Structure:\n" ++ pretty, "JSON File", none, none⟩
      | none => .ok ⟨jsonContent, "JSON File (Invalid format, showing raw content)", none, none⟩
    else if fileExtension = ".xml" then
      let xmlContent := env.iconvDecode fileBuffer (detectEncoding fileBuffer)
      .ok ⟨"XML Content:\n" ++ xmlContent ++ "\n\n--- Text Content: ---\n" ++
        env.htmlText xmlContent, "XML Document", none, none⟩
    else
      .ok ⟨env.iconvDecode fileBuffer (detectEncoding fileBuffer),
        "Unknown File Type (" ++
          (if fileExtension = "" then "no extension" else fileExtension) ++ ")",
        none, none⟩)

/-! ## The detailedsummary extractor
(`extractTextFromFile`, `src/api/detailedsummary.js` lines 23-43) -/

/-- External-library environment for the detailedsummary handler. -/
structure DsEnv where
  fsRead : String → List Nat
  pdfParse : List Nat → Option (String × Nat)
  readUtf8 : String → String

/-- `extractTextFromFile` of the detailedsummary handler: only `.pdf` and
`.txt` are extracted; `.doc`/`.docx` and every other extension throw. -/
def extractTextFromFile (env : DsEnv) (filePath filename : String) :
    Except String String :=
  let ext := fileExtensionOf filename
  let wrap : Except String String → Except String String := fun r =>
    match r with
    | .ok v => .ok v
    | .error m => .error ("Failed to extract text from file: " ++ m)
  wrap (
    if ext = ".pdf" then
      match env.pdfParse (env.fsRead filePath) with
      | some (text, _) => .ok text
      | none => .error "pdf-parse threw"
    else if ext = ".txt" then
      .ok (env.readUtf8 filePath)
    else if ext = ".doc" ∨ ext = ".docx" then
      .error "Word document processing not implemented yet. Please convert to PDF or plain text."
    else
      .error ("Unsupported file format: " ++ ext))

/-! ## Message assembly and truncation of the part_007 upload handler
(`handler`, `src/unnamed/part_007` lines 158-260; truncation at 227-231) -/

/-- The fixed notice the part_007 handler appends when truncating. -/
def truncationNotice : String := "\n\n[Content truncated due to length...]"

/-- `maxLength` of the part_007 handler. -/
def maxLength : Nat := 12000

/-- The handler's combination of the `message` field and the extracted file
content (`fileContent` stays `''` when no file was uploaded or extraction
produced nothing); `none` models the 400 "Message or file is required"
return. -/
def combinedMessage (message : Option String) (fileInfo fileContent : String) :
    Option String :=
  if truthy message ∧ fileContent ≠ "" then
    some ("User message: " ++ message.getD "" ++ "\n\n" ++ fileInfo ++
      "\nFile content:\n" ++ fileContent)
  else if truthy message then
    some (message.getD "")
  else if fileContent ≠ "" then
    some ("Please analyze and summarize this file:\n" ++ fileInfo ++
      "\n\nContent:\n" ++ fileContent)
  else
    none

/-- The truncation step the handler applies before the upstream call. -/
def truncateForUpstream (finalMessage : String) : String :=
  if finalMessage.length > maxLength then
    finalMessage.take maxLength ++ truncationNotice
  else
    finalMessage

/-- The user message the part_007 handler sends upstream. -/
def upstreamUserMessage (message : Option String) (fileInfo fileContent : String) :
    Option String :=
  (combinedMessage message fileInfo fileContent).map truncateForUpstream

/-- C5: whenever the combined message-plus-file text of the extraction
dispatcher handler exceeds 12000 characters, the text sent upstream is
exactly the first 12000 characters followed by the fixed truncation notice;
at 12000 characters or fewer it is sent unchanged. -/
theorem truncation_policy (message : Option String) (fileInfo fileContent : String)
    (finalMessage : String)
    (hfm : combinedMessage message fileInfo fileContent = some finalMessage) :
    (finalMessage.length > 12000 →
      upstreamUserMessage message fileInfo fileContent =
        some (finalMessage.take 12000 ++ truncationNotice)) ∧
    (finalMessage.length ≤ 12000 →
      upstreamUserMessage message fileInfo fileContent = some finalMessage) := by
  have hu : upstreamUserMessage message fileInfo fileContent =
      some (truncateForUpstream finalMessage) := by
    rw [upstreamUserMessage, hfm]
    rfl
  rw [hu]
  unfold truncateForUpstream maxLength
  constructor
  · intro h
    rw [if_pos h]
  · intro h
    rw [if_neg (by omega)]

/-- A 12001-character message, used to exercise the truncation branch. -/
def longMessage : String := String.mk (List.replicate 12001 'a')

/-- C5 witness: the truncation policy evaluated on a concrete
12001-character message with no file. -/
theorem truncation_policy_witness :
    combinedMessage (some longMessage) "" "" = some longMessage ∧
    longMessage.length > 12000 ∧
    upstreamUserMessage (some longMessage) "" "" =
      some (longMessage.take 12000 ++ truncationNotice) := by
  have h1 : combinedMessage (some longMessage) "" "" = some longMessage := by
    have ht : truthy (some longMessage) = true := by
      simp [truthy, longMessage]
    simp [combinedMessage, ht]
  have hlen : ∀ l : List Char, (String.mk l).length = l.length := fun _ => rfl
  have h2 : longMessage.length > 12000 := by
    rw [longMessage, hlen, List.length_replicate]
    omega
  exact ⟨h1, h2, (truncation_policy (some longMessage) "" "" longMessage h1).1 h2⟩

/-- C10: the extraction dispatcher is independent of the declared MIME type:
identical bytes and filename give identical results for any two declared
MIME types, because `processFile` never reads its `mimeType` argument. -/
theorem processFile_mime_independent (env : ExtEnv)
    (filePath fileName mimeType1 mimeType2 : String) :
    processFile env filePath fileName mimeType1 =
      processFile env filePath fileName mimeType2 := rfl

/-- A degenerate external environment for the detailedsummary extractor. -/
def dsEnvNull : DsEnv := ⟨fun _ => [], fun _ => none, fun _ => ""⟩

/-- C1 counterexample: the detailedsummary upload handler's extraction step
does not succeed on a `.docx` upload — it throws its "not implemented"
error — so not every upload handler supports DOCX (or XLSX, CSV, HTML,
Markdown, JSON, XML) extraction. -/
theorem extractTextFromFile_docx_fails :
    extractTextFromFile dsEnvNull "/tmp/upload" "notes.docx" =
      .error ("Failed to extract text from file: " ++
        "Word document processing not implemented yet. Please convert to PDF or plain text.") := by
  rfl

/-- C1 (amended): the part_007 multi-format dispatcher extracts text for all
nine claimed formats, dispatching on the lower-cased filename extension and
succeeding whenever the underlying format library succeeds; the
detailedsummary extractor instead supports only `.txt` and `.pdf` and throws
on every other of the nine extensions. -/
theorem extraction_dispatch_support :
    (∀ (env : ExtEnv) (filePath fileName mimeType : String),
      (∀ b, (env.pdfParse b).isSome) → (∀ b, (env.mammoth b).isSome) →
      (∀ b, (env.xlsxRead b).isSome) →
      fileExtensionOf fileName ∈
        [".txt", ".pdf", ".docx", ".xlsx", ".csv", ".html", ".md", ".json", ".xml"] →
      (processFile env filePath fileName mimeType).isOk = true) ∧
    (∀ (denv : DsEnv) (filePath fileName : String),
      fileExtensionOf fileName ∈
        [".docx", ".xlsx", ".csv", ".html", ".md", ".json", ".xml"] →
      (extractTextFromFile denv filePath fileName).isOk = false) := by
  constructor
  · intro env filePath fileName mimeType hpdf hdoc hxls hext
    simp only [List.mem_cons, List.not_mem_nil, or_false] at hext
    rcases hext with h | h | h | h | h | h | h | h | h
    · simp [processFile, h, Except.isOk, Except.toBool]
    · rcases Option.isSome_iff_exists.mp (hpdf (env.fsRead filePath)) with ⟨⟨t, n⟩, hv⟩
      simp [processFile, h, hv, Except.isOk, Except.toBool]
    · rcases Option.isSome_iff_exists.mp (hdoc (env.fsRead filePath)) with ⟨v, hv⟩
      simp [processFile, h, hv, Except.isOk, Except.toBool]
    · rcases Option.isSome_iff_exists.mp (hxls (env.fsRead filePath)) with ⟨v, hv⟩
      simp [processFile, h, hv, Except.isOk, Except.toBool]
    · simp [processFile, h, Except.isOk, Except.toBool]
    · simp [processFile, h, Except.isOk, Except.toBool]
    · simp [processFile, h, Except.isOk, Except.toBool]
    · cases hj : env.jsonPretty (env.iconvDecode (env.fsRead filePath)
        (detectEncoding (env.fsRead filePath))) <;>
        simp [processFile, h, hj, Except.isOk, Except.toBool]
    · simp [processFile, h, Except.isOk, Except.toBool]
  · intro denv filePath fileName hext
    simp only [List.mem_cons, List.not_mem_nil, or_false] at hext
    rcases hext with h | h | h | h | h | h | h <;>
      simp [extractTextFromFile, h, Except.isOk, Except.toBool]

/-- An external environment in which every parser succeeds. -/
def extEnvOk : ExtEnv :=
  ⟨fun _ => [], fun _ => some ("pdf text", 1), fun _ => some "doc text",
   fun _ => some [("Sheet1", "a,b")], fun _ _ => "decoded", fun s => s,
   fun s => s, fun _ => some "pretty"⟩

/-- C1 witness: the amended claim evaluated at a `.pdf` upload with all
parsers succeeding, and at a `.csv` upload of the detailedsummary
extractor. -/
theorem extraction_dispatch_support_witness :
    (fileExtensionOf "report.pdf" ∈
      [".txt", ".pdf", ".docx", ".xlsx", ".csv", ".html", ".md", ".json", ".xml"]) ∧
    (processFile extEnvOk "/tmp/f" "report.pdf" "application/pdf").isOk = true ∧
    (extractTextFromFile dsEnvNull "/tmp/f" "data.csv").isOk = false :=
  ⟨by decide,
   extraction_dispatch_support.1 extEnvOk "/tmp/f" "report.pdf" "application/pdf"
     (fun _ => rfl) (fun _ => rfl) (fun _ => rfl) (by decide),
   extraction_dispatch_support.2 dsEnvNull "/tmp/f" "data.csv" (by decide)⟩

/-! ## Conversation handlers

`src/unnamed/part_000` (chat), `src/unnamed/part_001` (simple summary) and
`src/api/detailedsummary.js` all share the same structure: validate, compute
`newId = conversationId || uuidv4()`, read the stored history, push the user
turn, call the LLM, push the assistant turn and `Map.set` the result.  The
LLM call is modelled by an `Option String` (`none` = the awaited call threw).
Because `history` aliases the stored array, a throw after the first `push`
leaves the user turn appended whenever the key already existed. -/

/-- JS `String.prototype.trim`, structurally on characters. -/
def isTrimWs (c : Char) : Bool :=
  c = ' ' || c = '\t' || c = '\n' || c = '\r'

/-- JS `s.trim()`. -/
def jsTrim (s : String) : String :=
  String.mk (((s.data.dropWhile isTrimWs).reverse.dropWhile isTrimWs).reverse)

/-- Observable outcome of one conversation-handler execution: HTTP status,
response fields, the message list sent upstream (`none` when no outbound
request was made), the number of outbound HTTP requests issued, and the
conversation store after the execution. -/
structure HandlerOut where
  status : Nat
  errorMsg : Option String
  text : Option String
  convId : Option String
  sentMessages : Option (List Msg)
  outbound : Nat
  store : Store
deriving DecidableEq, Repr

/-- The store after the push-user / call / push-assistant / `set` sequence.
On success the full turn is stored; on a throw the user turn stays pushed
into the stored array exactly when the key already existed (the `Map` holds
the same array object that `push` mutated). -/
def storeAfterTurn (store : Store) (newId : String) (userMsg : Msg)
    (llm : Option String) : Store :=
  let history0 := (storeGet store newId).getD []
  match llm with
  | some reply => storeSet store newId (history0 ++ [userMsg, ⟨"assistant", reply⟩])
  | none =>
      if (storeGet store newId).isSome then storeSet store newId (history0 ++ [userMsg])
      else store

theorem storeExtends_afterTurn (store : Store) (k : String) (u : Msg)
    (llm : Option String) : storeExtends store (storeAfterTurn store k u llm) := by
  unfold storeAfterTurn
  cases llm with
  | some reply => exact storeExtends_set_append store k [u, ⟨"assistant", reply⟩]
  | none =>
    by_cases h : (storeGet store k).isSome
    · simp only [if_pos h]
      exact storeExtends_set_append store k [u]
    · simp only [if_neg h]
      exact storeExtends_refl store

/-- Request shape of the part_000 chat handler. -/
structure ChatReq where
  method : String
  prompt : Option String
  conversationId : Option String
deriving DecidableEq, Repr

/-- The part_000 chat handler (also `POST /api/chat` of the express example). -/
def chatHandler (store : Store) (req : ChatReq) (hasApiKey : Bool) (fresh : String)
    (llm : Option String) : HandlerOut :=
  if req.method ≠ "POST" then
    ⟨405, some "Method not allowed", none, none, none, 0, store⟩
  else if truthy req.prompt = false then
    ⟨400, some "Missing prompt", none, none, none, 0, store⟩
  else if hasApiKey = false then
    ⟨500, some "Missing API key", none, none, none, 0, store⟩
  else
    let prompt := req.prompt.getD ""
    let newId := if truthy req.conversationId then req.conversationId.getD "" else fresh
    let histUser := (storeGet store newId).getD [] ++ [⟨"user", prompt⟩]
    let store' := storeAfterTurn store newId ⟨"user", prompt⟩ llm
    match llm with
    | some assistantText =>
        ⟨200, none, some assistantText, some newId, some histUser, 1, store'⟩
    | none =>
        ⟨500, some "Failed to generate chat response", none, none, some histUser, 1, store'⟩

/-- Request shape of the part_001 simple-summary handler. -/
structure SummaryReq where
  method : String
  text : Option String
  conversationId : Option String
deriving DecidableEq, Repr

/-- System message of the part_001 simple-summary handler. -/
def summarySystemContent : String :=
  "You are a helpful assistant that provides clear, concise summaries. Keep your responses short and easy to understand."

/-- Inline system prompt prepended to the user text in part_001. -/
def summaryUserPrefix : String :=
  "summarize this simply but make sure i understand and keep it short"

/-- The part_001 simple-summary handler. -/
def summaryHandler (store : Store) (req : SummaryReq) (hasApiKey : Bool) (fresh : String)
    (llm : Option String) : HandlerOut :=
  if req.method ≠ "POST" then
    ⟨405, some "Method not allowed", none, none, none, 0, store⟩
  else if truthy req.text = false then
    ⟨400, some "Missing text to summarize", none, none, none, 0, store⟩
  else if hasApiKey = false then
    ⟨500, some "Missing API key", none, none, none, 0, store⟩
  else
    let text := req.text.getD ""
    let newId := if truthy req.conversationId then req.conversationId.getD "" else fresh
    let userPrompt := summaryUserPrefix ++ "\n\n" ++ text
    let histUser := (storeGet store newId).getD [] ++ [⟨"user", userPrompt⟩]
    let sent := ⟨"system", summarySystemContent⟩ :: histUser
    let store' := storeAfterTurn store newId ⟨"user", userPrompt⟩ llm
    match llm with
    | some summary => ⟨200, none, some summary, some newId, some sent, 1, store'⟩
    | none =>
        ⟨500, some "Failed to generate simple summary", none, none, some sent, 1, store'⟩

/-- Request shape of the detailedsummary handler; `file` is the uploaded
file's `(filepath, originalFilename)` when present. -/
structure DetailedReq where
  method : String
  text : Option String
  conversationId : Option String
  file : Option (String × String)
deriving DecidableEq, Repr

/-- System message of the detailedsummary handler. -/
def detailedSystemContent : String :=
  "You are a helpful assistant that provides detailed, comprehensive analyses while maintaining clarity. Include all important details but explain them in an understandable way. Structure your response with clear sections and bullet points where appropriate."

/-- Inline system prompt prepended to the text in detailedsummary.js. -/
def detailedUserPrefix : String :=
  "analyze this simply, make sure i understand but dont simplify too much, still be in the detail and make sure all the details are there so i understand"

/-- The tail of the detailedsummary handler after text assembly. -/
def detailedCore (store : Store) (newId textToAnalyze : String)
    (llm : Option String) : HandlerOut :=
  if jsTrim textToAnalyze = "" then
    ⟨400, some "No text provided to analyze (either in text field or file)",
      none, none, none, 0, store⟩
  else
    let userPrompt := detailedUserPrefix ++ "\n\n" ++ textToAnalyze
    let histUser := (storeGet store newId).getD [] ++ [⟨"user", userPrompt⟩]
    let sent := ⟨"system", detailedSystemContent⟩ :: histUser
    let store' := storeAfterTurn store newId ⟨"user", userPrompt⟩ llm
    match llm with
    | some summary => ⟨200, none, some summary, some newId, some sent, 1, store'⟩
    | none =>
        ⟨500, some "Failed to generate detailed summary", none, none, some sent, 1, store'⟩

/-- The detailedsummary handler: optional upload extraction feeding the common
conversation tail. -/
def detailedHandler (denv : DsEnv) (store : Store) (req : DetailedReq)
    (hasApiKey : Bool) (fresh : String) (llm : Option String) : HandlerOut :=
  if req.method ≠ "POST" then
    ⟨405, some "Method not allowed", none, none, none, 0, store⟩
  else if hasApiKey = false then
    ⟨500, some "Missing API key", none, none, none, 0, store⟩
  else
    let text0 := req.text.getD ""
    let newId := if truthy req.conversationId then req.conversationId.getD "" else fresh
    match req.file with
    | some (fp, fn) =>
      match extractTextFromFile denv fp fn with
      | .error m => ⟨400, some m, none, none, none, 0, store⟩
      | .ok extracted =>
          detailedCore store newId
            (extracted ++ (if text0 ≠ "" then "\n\n" ++ text0 else "")) llm
    | none => detailedCore store newId text0 llm

theorem detailedCore_extends (store : Store) (k t : String) (llm : Option String) :
    storeExtends store (detailedCore store k t llm).store := by
  unfold detailedCore
  split_ifs
  · exact storeExtends_refl store
  · cases llm <;> (try dsimp only) <;> exact storeExtends_afterTurn store k _ _

/-- C2: the conversation store is append-only and eviction-free: after any
execution of the chat, simple-summary or detailedsummary handler, every
identifier stored beforehand is still stored, and its old message sequence
is a prefix of the new one. -/
theorem conversation_store_append_only (store : Store) (creq : ChatReq)
    (sreq : SummaryReq) (denv : DsEnv) (dreq : DetailedReq) (hasApiKey : Bool)
    (fresh : String) (llm : Option String) :
    storeExtends store (chatHandler store creq hasApiKey fresh llm).store ∧
    storeExtends store (summaryHandler store sreq hasApiKey fresh llm).store ∧
    storeExtends store (detailedHandler denv store dreq hasApiKey fresh llm).store := by
  refine ⟨?_, ?_, ?_⟩
  · unfold chatHandler
    split_ifs <;>
      first
        | exact storeExtends_refl store
        | (cases llm <;> (try dsimp only) <;>
            exact storeExtends_afterTurn store _ _ _)
  · unfold summaryHandler
    split_ifs <;>
      first
        | exact storeExtends_refl store
        | (cases llm <;> (try dsimp only) <;>
            exact storeExtends_afterTurn store _ _ _)
  · unfold detailedHandler
    split_ifs <;>
      first
        | exact storeExtends_refl store
        | (cases dreq.file with
           | none =>
             try dsimp only
             exact detailedCore_extends store _ _ llm
           | some f =>
             obtain ⟨fp, fn⟩ := f
             try dsimp only
             cases extractTextFromFile denv fp fn with
             | error m =>
               try dsimp only
               exact storeExtends_refl store
             | ok extracted =>
               try dsimp only
               exact detailedCore_extends store _ _ llm)

/-- C2 witness: the append-only property evaluated on a concrete store and a
concrete chat execution. -/
theorem conversation_store_append_only_witness :
    ∃ msgs', storeGet (chatHandler [("c", [⟨"user", "hi"⟩])]
        ⟨"POST", some "yo", some "c"⟩ true "fresh" (some "ok")).store "c" =
      some msgs' ∧ [(⟨"user", "hi"⟩ : Msg)] <+: msgs' :=
  (conversation_store_append_only [("c", [⟨"user", "hi"⟩])]
      ⟨"POST", some "yo", some "c"⟩ ⟨"POST", none, none⟩ dsEnvNull
      ⟨"POST", none, none, none⟩ true "fresh" (some "ok")).1
    "c" [⟨"user", "hi"⟩] rfl

/-- C4: both conversation handlers echo a supplied conversationId verbatim
and feed the previously stored history to the LLM ahead of the new turn;
with no conversationId supplied they use the fresh generated identifier,
store the new turn under it and return it. -/
theorem conversation_id_semantics :
    (∀ (store : Store) (fresh p reply : String),
      storeGet store fresh = none → p ≠ "" →
      (chatHandler store ⟨"POST", some p, none⟩ true fresh (some reply)).convId =
          some fresh ∧
      storeGet (chatHandler store ⟨"POST", some p, none⟩ true fresh (some reply)).store
          fresh = some [⟨"user", p⟩, ⟨"assistant", reply⟩]) ∧
    (∀ (store : Store) (fresh cid p reply : String) (old : List Msg),
      cid ≠ "" → storeGet store cid = some old → p ≠ "" →
      (chatHandler store ⟨"POST", some p, some cid⟩ true fresh (some reply)).convId =
          some cid ∧
      (chatHandler store ⟨"POST", some p, some cid⟩ true fresh
          (some reply)).sentMessages = some (old ++ [⟨"user", p⟩]) ∧
      storeGet (chatHandler store ⟨"POST", some p, some cid⟩ true fresh
          (some reply)).store cid =
        some (old ++ [⟨"user", p⟩, ⟨"assistant", reply⟩])) ∧
    (∀ (store : Store) (fresh t reply : String),
      storeGet store fresh = none → t ≠ "" →
      (summaryHandler store ⟨"POST", some t, none⟩ true fresh (some reply)).convId =
          some fresh ∧
      storeGet (summaryHandler store ⟨"POST", some t, none⟩ true fresh
          (some reply)).store fresh =
        some [⟨"user", summaryUserPrefix ++ "\n\n" ++ t⟩, ⟨"assistant", reply⟩]) ∧
    (∀ (store : Store) (fresh cid t reply : String) (old : List Msg),
      cid ≠ "" → storeGet store cid = some old → t ≠ "" →
      (summaryHandler store ⟨"POST", some t, some cid⟩ true fresh (some reply)).convId =
          some cid ∧
      (summaryHandler store ⟨"POST", some t, some cid⟩ true fresh
          (some reply)).sentMessages =
        some (⟨"system", summarySystemContent⟩ ::
          (old ++ [⟨"user", summaryUserPrefix ++ "\n\n" ++ t⟩]))) := by
  refine ⟨?_, ?_, ?_, ?_⟩
  · intro store fresh p reply hfresh hp
    simp [chatHandler, truthy, hp, hfresh, storeAfterTurn, storeGet_storeSet]
  · intro store fresh cid p reply old hcid hold hp
    simp [chatHandler, truthy, hp, hcid, hold, storeAfterTurn, storeGet_storeSet]
  · intro store fresh t reply hfresh ht
    simp [summaryHandler, truthy, ht, hfresh, storeAfterTurn, storeGet_storeSet]
  · intro store fresh cid t reply old hcid hold ht
    simp [summaryHandler, truthy, ht, hcid, hold, storeAfterTurn, storeGet_storeSet]

/-- C4 witness: the supplied-conversationId chat case evaluated on a concrete
store. -/
theorem conversation_id_semantics_witness :
    (chatHandler [("c", [⟨"user", "hi"⟩])] ⟨"POST", some "yo", some "c"⟩ true "f"
        (some "ok")).convId = some "c" ∧
    (chatHandler [("c", [⟨"user", "hi"⟩])] ⟨"POST", some "yo", some "c"⟩ true "f"
        (some "ok")).sentMessages = some [⟨"user", "hi"⟩, ⟨"user", "yo"⟩] ∧
    storeGet (chatHandler [("c", [⟨"user", "hi"⟩])] ⟨"POST", some "yo", some "c"⟩
        true "f" (some "ok")).store "c" =
      some [⟨"user", "hi"⟩, ⟨"user", "yo"⟩, ⟨"assistant", "ok"⟩] :=
  conversation_id_semantics.2.1 [("c", [⟨"user", "hi"⟩])] "f" "c" "yo" "ok"
    [⟨"user", "hi"⟩] (by decide) rfl (by decide)

/-- C7: a POST chat request whose prompt is absent, null or empty is answered
400 "Missing prompt" with no outbound request and an unchanged conversation
store. -/
theorem missing_prompt_rejected (store : Store) (req : ChatReq) (hasApiKey : Bool)
    (fresh : String) (llm : Option String)
    (hm : req.method = "POST") (hp : req.prompt = none ∨ req.prompt = some "") :
    (chatHandler store req hasApiKey fresh llm).status = 400 ∧
    (chatHandler store req hasApiKey fresh llm).errorMsg = some "Missing prompt" ∧
    (chatHandler store req hasApiKey fresh llm).outbound = 0 ∧
    (chatHandler store req hasApiKey fresh llm).store = store := by
  have ht : truthy req.prompt = false := by
    rcases hp with h | h <;> simp [h, truthy]
  simp [chatHandler, hm, ht]

/-- C7 witness: the missing-prompt rejection evaluated on a concrete request. -/
theorem missing_prompt_rejected_witness :
    (chatHandler [] ⟨"POST", none, none⟩ true "f" none).status = 400 ∧
    (chatHandler [] ⟨"POST", none, none⟩ true "f" none).errorMsg =
      some "Missing prompt" ∧
    (chatHandler [] ⟨"POST", none, none⟩ true "f" none).outbound = 0 ∧
    (chatHandler [] ⟨"POST", none, none⟩ true "f" none).store = [] :=
  missing_prompt_rejected [] ⟨"POST", none, none⟩ true "f" none rfl (Or.inl rfl)

/-! ## The chat2 image handler (`src/api/chat2.js`)

The S3 upload (`tryUploadToS3`, lines 34-64) and the OpenAI calls are each
outbound HTTP requests; the handler is modelled down to its outbound-request
count and response status. -/

/-- Split a character list at the last occurrence of `sep` that leaves a
nonempty remainder — the split the greedy regex `^data:(.+);base64,(.+)$`
commits to. -/
def lastSepSplit (sep : List Char) : List Char → Option (List Char × List Char)
  | [] => none
  | c :: rest =>
    match lastSepSplit sep rest with
    | some (pre, post) => some (c :: pre, post)
    | none =>
      if sep.isPrefixOf (c :: rest) then
        let post := (c :: rest).drop sep.length
        if post = [] then none else some ([], post)
      else none

/-- `decodeDataUrl` of chat2.js: the greedy match of
`^data:(.+);base64,(.+)$`, yielding the MIME type and base64 payload. -/
def decodeDataUrl (dataUrl : String) : Option (String × String) :=
  let cs := dataUrl.data
  if "data:".data.isPrefixOf cs then
    match lastSepSplit ";base64,".data (cs.drop 5) with
    | some (mime, b64) =>
        if mime = [] then none else some (String.mk mime, String.mk b64)
    | none => none
  else none

/-- Request shape of the chat2 handler. -/
structure Chat2Req where
  method : String
  message : Option String
  image : Option String
deriving DecidableEq, Repr

/-- External outcomes for one chat2 execution: whether all four AWS
variables are configured, whether the S3 upload succeeded (with its
presigned URL), and the two possible OpenAI call outcomes. -/
structure Chat2Env where
  awsConfigured : Bool
  s3Upload : Option String
  openaiImage : Option String
  openaiChat : Option String

/-- A handler outcome reduced to status code and outbound-request count. -/
structure SimpleOut where
  status : Nat
  outbound : Nat
deriving DecidableEq, Repr

/-- The chat2 handler.  On the image path with AWS configured it issues the
S3 `PutObject` request and then an OpenAI request — two outbound requests
for one incoming request (on S3 failure the inline OpenAI fallback still
makes it two attempts); without AWS, or on the text path, it issues one. -/
def chat2Handler (req : Chat2Req) (env : Chat2Env) : SimpleOut :=
  if req.method = "OPTIONS" then ⟨200, 0⟩
  else if req.method ≠ "POST" then ⟨405, 0⟩
  else if truthy req.image = false ∧ truthy req.message = false then ⟨400, 0⟩
  else if truthy req.image then
    match decodeDataUrl (req.image.getD "") with
    | none => ⟨400, 0⟩
    | some _ =>
      if env.awsConfigured then
        match env.s3Upload with
        | some _ =>
          match env.openaiImage with
          | some _ => ⟨200, 2⟩
          | none => ⟨502, 2⟩
        | none =>
          match env.openaiImage with
          | some _ => ⟨200, 2⟩
          | none => ⟨502, 2⟩
      else
        match env.openaiImage with
        | some _ => ⟨200, 1⟩
        | none => ⟨502, 1⟩
  else
    match env.openaiChat with
    | some _ => ⟨200, 1⟩
    | none => ⟨502, 1⟩

/-- A concrete POST with an image and S3 configured. -/
def s3ImageReq : Chat2Req := ⟨"POST", none, some "data:image/png;base64,AAAA"⟩

/-- A concrete environment where S3 and OpenAI succeed. -/
def s3OkEnv : Chat2Env := ⟨true, some "https://bucket/key?sig", some "reply", some "reply"⟩

/-- C3 counterexample: with S3 configured, a processed image request makes
the chat2 handler issue two outbound HTTP requests (the S3 upload and the
OpenAI analysis call), not exactly one. -/
theorem chat2_two_outbound_requests :
    (chat2Handler s3ImageReq s3OkEnv).outbound = 2 ∧
    (chat2Handler s3ImageReq s3OkEnv).outbound ≠ 1 := by
  constructor <;> decide

/-- C3 (amended): every modelled handler issues at most one outbound HTTP
request per request, except the chat2 handler, which issues at most two and
reaches two exactly on its image path with AWS configured (S3 upload plus
OpenAI call). -/
theorem outbound_request_count :
    (∀ (store : Store) (req : ChatReq) (k : Bool) (fresh : String)
        (llm : Option String), (chatHandler store req k fresh llm).outbound ≤ 1) ∧
    (∀ (store : Store) (req : SummaryReq) (k : Bool) (fresh : String)
        (llm : Option String), (summaryHandler store req k fresh llm).outbound ≤ 1) ∧
    (∀ (denv : DsEnv) (store : Store) (req : DetailedReq) (k : Bool) (fresh : String)
        (llm : Option String),
      (detailedHandler denv store req k fresh llm).outbound ≤ 1) ∧
    (∀ (req : Chat2Req) (env : Chat2Env), (chat2Handler req env).outbound ≤ 2) ∧
    (∀ (req : Chat2Req) (env : Chat2Env),
      (chat2Handler req env).outbound = 2 →
      truthy req.image = true ∧ env.awsConfigured = true) := by
  have hcore : ∀ (store : Store) (k t : String) (llm : Option String),
      (detailedCore store k t llm).outbound ≤ 1 := by
    intro store k t llm
    unfold detailedCore
    split_ifs <;> cases llm <;> simp
  refine ⟨?_, ?_, ?_, ?_, ?_⟩
  · intro store req k fresh llm
    unfold chatHandler
    split_ifs <;> cases llm <;> simp
  · intro store req k fresh llm
    unfold summaryHandler
    split_ifs <;> cases llm <;> simp
  · intro denv store req k fresh llm
    unfold detailedHandler
    split_ifs <;>
      first
        | (dsimp only; omega)
        | (cases req.file with
           | none => exact hcore _ _ _ _
           | some f =>
             obtain ⟨fp, fn⟩ := f
             dsimp only
             cases extractTextFromFile denv fp fn with
             | error m => dsimp only; omega
             | ok extracted => exact hcore _ _ _ _)
  · intro req env
    unfold chat2Handler
    split_ifs <;>
      first
        | (dsimp only; omega)
        | (cases decodeDataUrl (req.image.getD "") with
           | none => dsimp only; omega
           | some d =>
             cases env.s3Upload <;> cases env.openaiImage <;> (dsimp only; omega))
        | (cases env.openaiChat <;> (dsimp only; omega))
  · intro req env
    unfold chat2Handler
    by_cases h1 : req.method = "OPTIONS"
    · rw [if_pos h1]
      intro h
      simp at h
    · rw [if_neg h1]
      by_cases h2 : req.method ≠ "POST"
      · rw [if_pos h2]
        intro h
        simp at h
      · rw [if_neg h2]
        by_cases h3 : truthy req.image = false ∧ truthy req.message = false
        · rw [if_pos h3]
          intro h
          simp at h
        · rw [if_neg h3]
          by_cases h4 : truthy req.image = true
          · rw [if_pos h4]
            cases decodeDataUrl (req.image.getD "") with
            | none =>
              intro h
              simp at h
            | some d =>
              by_cases ha : env.awsConfigured
              · intro _
                exact ⟨h4, ha⟩
              · rw [if_neg ha]
                cases env.openaiImage <;> (intro h; simp at h)
          · rw [if_neg h4]
            cases env.openaiChat <;> (intro h; simp at h)

/-- C3 witness: the two-request bound applied at the concrete S3 image
request, recovering that this run was on the image-with-AWS path. -/
theorem outbound_request_count_witness :
    (chat2Handler s3ImageReq s3OkEnv).outbound ≤ 2 ∧
    (truthy s3ImageReq.image = true ∧ s3OkEnv.awsConfigured = true) :=
  ⟨outbound_request_count.2.2.2.1 s3ImageReq s3OkEnv,
   outbound_request_count.2.2.2.2 s3ImageReq s3OkEnv (by decide)⟩

/-! ## `src/api/ai-request.js` (C8)

Between the OPTIONS branch and the POST-method check, line 11 of the file is
the stray statement `asdasdasd asdas dsa`.  That line is not syntactically
valid JavaScript, so the module fails to load with a SyntaxError and no
request — in particular no non-POST request — ever receives the 405 the
method check below it would produce; even read leniently as bare
identifiers, evaluating the line would throw a ReferenceError before the
method check.  The model gives the handler an error outcome past that point
(crediting it, generously, with the OPTIONS early return). -/

/-- Request shape for ai-request.js. -/
structure AiReq where
  method : String
  prompt : Option String
deriving DecidableEq, Repr

/-- Shallow embedding of the ai-request.js handler with its stray
line 11: every execution that passes the OPTIONS check fails before the
`405` method check. -/
def aiRequestHandler (req : AiReq) : Except String SimpleOut :=
  if req.method = "OPTIONS" then .ok ⟨200, 0⟩
  else .error "SyntaxError: stray statement asdasdasd asdas dsa at line 11"

/-- C8: the claim fails on ai-request.js — a GET request to it produces a
module error, never the 405 response — while the intact handlers (part_000
chat, chat2) do answer non-POST requests with 405, no outbound request and
no store change, and the CORS-handling chat2 answers OPTIONS with 200. -/
theorem ai_request_405_bug :
    aiRequestHandler ⟨"GET", none⟩ =
      .error "SyntaxError: stray statement asdasdasd asdas dsa at line 11" ∧
    (chatHandler [] ⟨"GET", none, none⟩ true "f" none).status = 405 ∧
    (chatHandler [] ⟨"GET", none, none⟩ true "f" none).outbound = 0 ∧
    (chatHandler [] ⟨"GET", none, none⟩ true "f" none).store = [] ∧
    (chat2Handler ⟨"GET", none, none⟩ ⟨false, none, none, none⟩).status = 405 ∧
    (chat2Handler ⟨"GET", none, none⟩ ⟨false, none, none, none⟩).outbound = 0 ∧
    (chat2Handler ⟨"OPTIONS", none, none⟩ ⟨false, none, none, none⟩).status = 200 := by
  refine ⟨rfl, ?_, ?_, ?_, ?_, ?_, ?_⟩ <;> decide

/-! ## Login / chat token round trip
(`src/api/login.js` lines 14-19 and `src/api/api/chat.js` lines 7-26)

`crypto.createHmac('sha256', secret).update(x).digest('hex')` is modelled as
an abstract function `hmac : String → String → String`; the base64+JSON
encoding of the `iat` payload as `enc : Int → String` with its decoding
`decIat : String → Option Int` (`none` = `JSON.parse` threw).  Splitting on
`'.'`, `';'` and `'='` is the structural `jsSplit`. -/

theorem splitOnChar_ne_nil (sep : Char) (l : List Char) : splitOnChar sep l ≠ [] := by
  cases l with
  | nil => simp [splitOnChar]
  | cons c rest =>
    unfold splitOnChar
    cases splitOnChar sep rest with
    | nil => simp
    | cons h t => by_cases hc : c = sep <;> simp [hc]

theorem splitOnChar_cons (sep c : Char) (rest : List Char) :
    splitOnChar sep (c :: rest) =
      match splitOnChar sep rest with
      | [] => [[]]
      | h :: t => if c = sep then [] :: h :: t else (c :: h) :: t := rfl

theorem splitOnChar_sep_append (sep : Char) (p s : List Char) (hp : sep ∉ p) :
    splitOnChar sep (p ++ sep :: s) = p :: splitOnChar sep s := by
  induction p with
  | nil =>
    simp only [List.nil_append]
    rw [splitOnChar_cons]
    rcases hsp : splitOnChar sep s with _ | ⟨h, t⟩
    · exact absurd hsp (splitOnChar_ne_nil sep s)
    · simp
  | cons c cs ih =>
    have hc : c ≠ sep := fun h => hp (by simp [h])
    have hcs : sep ∉ cs := fun h => hp (List.mem_cons_of_mem _ h)
    simp only [List.cons_append]
    rw [splitOnChar_cons, ih hcs]
    simp [hc]

theorem splitOnChar_not_mem (sep : Char) (l : List Char) (h : sep ∉ l) :
    splitOnChar sep l = [l] := by
  induction l with
  | nil => rfl
  | cons c rest ih =>
    have hc : c ≠ sep := fun hh => h (by simp [hh])
    have hrest : sep ∉ rest := fun hh => h (List.mem_cons_of_mem _ hh)
    unfold splitOnChar
    rw [ih hrest]
    simp [hc]

theorem strData_append (a b : String) : (a ++ b).data = a.data ++ b.data := by
  cases a
  cases b
  rfl

theorem jsSplit_dot_token (p s : String) (hp : '.' ∉ p.data) (hs : '.' ∉ s.data) :
    jsSplit '.' (p ++ "." ++ s) = [p, s] := by
  have hdot : ("." : String).data = ['.'] := rfl
  have hd : (p ++ "." ++ s).data = p.data ++ '.' :: s.data := by
    rw [strData_append, strData_append, hdot]
    simp
  unfold jsSplit
  rw [hd, splitOnChar_sep_append '.' p.data s.data hp,
    splitOnChar_not_mem '.' s.data hs]
  cases p
  cases s
  rfl

/-- The cookie-token extraction of api/chat.js: split the cookie header on
`';'`, trim, find the first `token=` pair, and take what follows the first
`'='`. -/
def cookieTokenOf (cookieHeader : String) : Option String :=
  match ((jsSplit ';' cookieHeader).map jsTrim).find?
      (fun c => "token=".data.isPrefixOf c.data) with
  | none => none
  | some pair => (jsSplit '=' pair)[1]?

/-- Outcome of the token verification prefix of api/chat.js. -/
inductive VerifyResult where
  | ok (iat : Int)
  | invalidToken
  | invalidSignature
  | invalidPayload
  | expired
deriving DecidableEq, Repr

/-- The verification chain of api/chat.js: split the token on `'.'`, reject
missing or empty parts, compare the signature to the HMAC of the payload,
parse the payload, and reject sessions older than the maximum age. -/
def verifyToken (hmac : String → String → String) (decIat : String → Option Int)
    (secret : String) (maxAgeMs now : Int) (token : String) : VerifyResult :=
  let parts := jsSplit '.' token
  let payloadB64 := (parts[0]?).getD ""
  match parts[1]? with
  | none => .invalidToken
  | some sig =>
    if payloadB64 = "" ∨ sig = "" then .invalidToken
    else if sig ≠ hmac secret payloadB64 then .invalidSignature
    else
      match decIat payloadB64 with
      | none => .invalidPayload
      | some iat => if now - iat > maxAgeMs then .expired else .ok iat

/-- The token the login handler issues: base64 payload, `'.'`, hex HMAC of
the payload under the secret. -/
def loginTokenOf (hmac : String → String → String) (enc : Int → String)
    (secret : String) (iat : Int) : String :=
  enc iat ++ "." ++ hmac secret (enc iat)

/-- Request shape for the authenticated chat endpoint. -/
structure AuthChatReq where
  method : String
  cookieHeader : String
  message : Option String
deriving DecidableEq, Repr

/-- Observable outcome of the authenticated chat endpoint. -/
structure AuthOut where
  status : Nat
  errorMsg : Option String
  outbound : Nat
deriving DecidableEq, Repr

/-- The api/chat.js handler: method check, cookie token extraction, token
verification (each failure a distinct 401 before any upstream call), message
validation, then the single OpenAI request. -/
def authChatHandler (hmac : String → String → String) (decIat : String → Option Int)
    (secret : String) (maxAgeMs now : Int) (req : AuthChatReq)
    (llm : Option String) : AuthOut :=
  if req.method ≠ "POST" then ⟨405, some "Method not allowed", 0⟩
  else
    match cookieTokenOf req.cookieHeader with
    | none => ⟨401, some "Not authenticated", 0⟩
    | some token =>
      if token = "" then ⟨401, some "Not authenticated", 0⟩
      else
        match verifyToken hmac decIat secret maxAgeMs now token with
        | .invalidToken => ⟨401, some "Invalid token", 0⟩
        | .invalidSignature => ⟨401, some "Invalid token signature", 0⟩
        | .invalidPayload => ⟨401, some "Invalid token payload", 0⟩
        | .expired => ⟨401, some "Session expired", 0⟩
        | .ok _ =>
          if truthy req.message = false then ⟨400, some "Missing message", 0⟩
          else
            match llm with
            | some _ => ⟨200, none, 1⟩
            | none => ⟨500, some "fetch threw", 1⟩

/-- C9: a token produced by the login handler under the same secret passes
the chat endpoint's verifier whenever its `iat` is within the maximum age
(given that the base64 payload and hex signature are dot-free and nonempty
and the payload decodes back); and any presented token whose signature part
is not the HMAC of its payload part is rejected with HTTP 401 before any
upstream call. -/
theorem token_round_trip (hmac : String → String → String) (enc : Int → String)
    (decIat : String → Option Int) (secret : String) (maxAgeMs now iat : Int) :
    (('.' ∉ (enc iat).data) → ('.' ∉ (hmac secret (enc iat)).data) →
      enc iat ≠ "" → hmac secret (enc iat) ≠ "" →
      decIat (enc iat) = some iat → now - iat ≤ maxAgeMs →
      verifyToken hmac decIat secret maxAgeMs now
        (loginTokenOf hmac enc secret iat) = .ok iat) ∧
    (∀ (req : AuthChatReq) (llm : Option String) (token p s : String),
      req.method = "POST" →
      cookieTokenOf req.cookieHeader = some token →
      (jsSplit '.' token)[0]? = some p →
      (jsSplit '.' token)[1]? = some s →
      s ≠ hmac secret p →
      (authChatHandler hmac decIat secret maxAgeMs now req llm).status = 401 ∧
      (authChatHandler hmac decIat secret maxAgeMs now req llm).outbound = 0) := by
  constructor
  · intro hdp hds hpne hsne hdec hage
    have hsplit := jsSplit_dot_token (enc iat) (hmac secret (enc iat)) hdp hds
    simp [verifyToken, loginTokenOf, hsplit, hpne, hsne, hdec]
    omega
  · intro req llm token p s hm hcookie hp0 hs1 hsig
    have htok : token ≠ "" := by
      intro h
      subst h
      have hempty : ("" : String).data = [] := rfl
      simp [jsSplit, splitOnChar, hempty] at hs1
    have hv : verifyToken hmac decIat secret maxAgeMs now token = .invalidToken ∨
        verifyToken hmac decIat secret maxAgeMs now token = .invalidSignature := by
      unfold verifyToken
      dsimp only
      rw [hp0, hs1]
      simp only [Option.getD_some]
      by_cases h1 : p = "" ∨ s = ""
      · rw [if_pos h1]
        exact Or.inl rfl
      · rw [if_neg h1, if_pos hsig]
        exact Or.inr rfl
    unfold authChatHandler
    rw [if_neg (by simp [hm]), hcookie]
    dsimp only
    rw [if_neg htok]
    rcases hv with hv | hv <;> rw [hv] <;> exact ⟨rfl, rfl⟩

/-- Concrete HMAC stand-in for the C9 witness. -/
def hmacW : String → String → String := fun s p => "h" ++ s ++ p

/-- Concrete payload encoder for the C9 witness. -/
def encW : Int → String := fun _ => "p"

/-- Concrete payload decoder for the C9 witness. -/
def decIatW : String → Option Int := fun s => if s = "p" then some 5 else none

/-- C9 witness: the round trip evaluated on concrete functions — a login
token verifies, and a token with a bad signature presented in a cookie gets
a 401 with no outbound request. -/
theorem token_round_trip_witness :
    verifyToken hmacW decIatW "k" 1000 5 (loginTokenOf hmacW encW "k" 5) = .ok 5 ∧
    (authChatHandler hmacW decIatW "k" 1000 5 ⟨"POST", "token=p.bad", some "hello"⟩
        (some "r")).status = 401 ∧
    (authChatHandler hmacW decIatW "k" 1000 5 ⟨"POST", "token=p.bad", some "hello"⟩
        (some "r")).outbound = 0 :=
  ⟨(token_round_trip hmacW encW decIatW "k" 1000 5 5).1 (by decide) (by decide)
      (by decide) (by decide) (by decide) (by decide),
   ((token_round_trip hmacW encW decIatW "k" 1000 5 5).2
      ⟨"POST", "token=p.bad", some "hello"⟩ (some "r") "p.bad" "p" "bad" rfl
      (by decide) (by decide) (by decide) (by decide)).1,
   ((token_round_trip hmacW encW decIatW "k" 1000 5 5).2
      ⟨"POST", "token=p.bad", some "hello"⟩ (some "r") "p.bad" "p" "bad" rfl
      (by decide) (by decide) (by decide) (by decide)).2⟩

end SaroshSite
